import Mathlib

/-!
Verification of the dependency-injection engine (the `Injector`) of the
nelson repository, package `injector` (file `injector.go`).

The Go code is shallowly embedded as follows.

* `Ty` models `reflect.Type`: an opaque, decidably-comparable universe of
  runtime type identifiers with just enough structure for the engine's
  checks (interface kinds, pointer kinds, Go assignability).  `Ty.err`
  models the `error` interface type (the code's `errType`).
* `Value` models a valid `reflect.Value`: a runtime type plus an opaque
  payload.  A Go `interface{}` argument that may be nil is an
  `Option Value` (`none` = nil interface).  The Go code's two ways of
  supplying a value (`reflect.Value` or a plain value) both carry the same
  type-plus-payload information under `reflect`, so they collapse to one.
* `Exec` models a Go call outcome: a normal result, an error return, or a
  runtime panic (`Exec.crash`).  Each operation returns its outcome paired
  with the post-state of the injector, since the Go methods mutate the
  receiver in place.
* `Vivifier` is the vivification strategy.  The Go `Vivify` method also
  receives the injector, which by its stated contract it must not modify
  and which none of the verified properties require it to read; it is
  modelled as a pure function of the requested type.
* Get and CallMethod additionally return ghost instrumentation derived
  from the control flow: the list of vivifier invocations (`VivCall`) and
  the call trace (types requested from Get, and the argument list the
  target was invoked with, if it was invoked).
-/

/-- Runtime type identifiers (`reflect.Type`).  `iface n` are interface
types, `named n` concrete non-error types, `namedErr n` concrete types
implementing `error`, `ptr t` pointer types. -/
inductive Ty where
  | int
  | str
  | err
  | iface (n : Nat)
  | named (n : Nat)
  | namedErr (n : Nat)
  | ptr (t : Ty)
deriving DecidableEq, Repr

/-- Whether the type is of interface kind (`Kind() == reflect.Interface`). -/
def Ty.isInterface : Ty → Bool
  | Ty.err => true
  | Ty.iface _ => true
  | _ => false

/-- Go "implements" for this type universe: `namedErr` types implement
`error`, and `named n` / `namedErr n` implement `iface n`. -/
def implementsB : Ty → Ty → Bool
  | Ty.namedErr _, Ty.err => true
  | Ty.named n, Ty.iface m => n == m
  | Ty.namedErr n, Ty.iface m => n == m
  | _, _ => false

/-- Go assignability (`reflect.Type.AssignableTo`): identical types, or
assignment to an interface the source type implements. -/
def Ty.assignableTo (v t : Ty) : Bool :=
  decide (v = t) || (t.isInterface && implementsB v t)

/-- A valid `reflect.Value`: its runtime type and an opaque payload. -/
structure Value where
  ty : Ty
  data : Nat
deriving DecidableEq, Repr

/-- The errors the engine can produce or pass through.  The injector's
sentinel errors carry the annotations the Go code attaches with
`fmt.Errorf` (the offending value and/or type); `other n` stands for an
arbitrary non-injector error (a vivifier's or a target's own error). -/
inductive GoError where
  | errNil
  | errDuplicate (t : Ty)
  | errBadInterface
  | errBadType (v : Value) (t : Ty)
  | errNoMethod
  | errBadMethod
  | errMissingValue (t : Ty)
  | other (n : Nat)
deriving DecidableEq, Repr

/-- Outcome of a Go call: normal result, error return, or runtime panic. -/
inductive Exec (α : Type) where
  | ok (a : α)
  | fail (e : GoError)
  | crash
deriving DecidableEq, Repr

/-- A vivifier: given the requested type, produce `(value, error)`; `none`
in the first component models a nil `interface{}` result. -/
def Vivifier : Type := Ty → Option Value × Option GoError

/-- The injector registry (`Injector` struct): `Objects` and `Vivifiers`
are Go maps (which may be nil, hence `Option`), `Fallback` an optional
vivifier.  Maps are association lists with unique keys. -/
structure Injector where
  Objects : Option (List (Ty × Value))
  Vivifiers : Option (List (Ty × Vivifier))
  Fallback : Option Vivifier

/-- Go map lookup on an association list keyed by type. -/
def lookupTy {α : Type} : List (Ty × α) → Ty → Option α
  | [], _ => none
  | (k, v) :: rest, t => if k = t then some v else lookupTy rest t

/-- The `Objects` lookup of `Get`/`add` (nil map has no entries). -/
def objLookup (i : Injector) (t : Ty) : Option Value :=
  match i.Objects with
  | some m => lookupTy m t
  | none => none

/-- The `Vivifiers` lookup of `Get`/`AddVivifier`. -/
def vivLookup (i : Injector) (t : Ty) : Option Vivifier :=
  match i.Vivifiers with
  | some m => lookupTy m t
  | none => none

/-- Whether a value slot is cached for `t`. -/
def isCached (i : Injector) (t : Ty) : Bool :=
  (objLookup i t).isSome

/-- `Injector.add`: verify assignability, check for a duplicate slot,
store the value.  Called with `none` (a nil `interface{}`, possible on
the `Get` vivification path) it panics: `reflect.ValueOf(nil)` is the
zero `Value`, and `.Type()` on the zero `Value` panics. -/
def Injector.add (i : Injector) (typ : Ty) (obj : Option Value) : Exec Value × Injector :=
  match obj with
  | none => (Exec.crash, i)
  | some val =>
    -- Make sure it's assignable
    if val.ty.assignableTo typ = false then
      (Exec.fail (GoError.errBadType val typ), i)
    else
      -- Add object to the injector
      match i.Objects with
      | none => (Exec.ok val, { i with Objects := some [(typ, val)] })
      | some m =>
        if (lookupTy m typ).isSome then
          (Exec.fail (GoError.errDuplicate typ), i)
        else
          (Exec.ok val, { i with Objects := some (m ++ [(typ, val)]) })

/-- `Injector.Add`: reject nil, then `add` under the value's own type. -/
def Injector.Add (i : Injector) (obj : Option Value) : Exec Unit × Injector :=
  match obj with
  | none => (Exec.fail GoError.errNil, i)
  | some val =>
    match i.add val.ty (some val) with
    | (Exec.ok _, i2) => (Exec.ok (), i2)
    | (Exec.fail e, i2) => (Exec.fail e, i2)
    | (Exec.crash, i2) => (Exec.crash, i2)

/-- A type token passed as `interface{}` to `AddInterface`/`AddVivifier`:
either a `reflect.Type` directly, or any other value, whose
`reflect.TypeOf` is its runtime type (the nil-pointer-to-interface idiom
is `TypeTok.val` with a `Ty.ptr (Ty.iface n)` type). -/
inductive TypeTok where
  | typ (t : Ty)
  | val (v : Value)

/-- `Injector.AddInterface`: reject nil values; a non-`reflect.Type`
token must be a pointer, and is dereferenced; the resulting type must be
an interface; then `add` under that interface type.  A nil token
(`none`) panics: `reflect.TypeOf(nil)` is nil and `Kind()` on it panics. -/
def Injector.AddInterface (i : Injector) (ifc : Option TypeTok) (obj : Option Value) :
    Exec Unit × Injector :=
  match obj with
  | none => (Exec.fail GoError.errNil, i)
  | some v =>
    match ifc with
    | none => (Exec.crash, i)
    | some tok =>
      let t? : Option Ty :=
        match tok with
        | TypeTok.typ t => some t
        | TypeTok.val w =>
          match w.ty with
          | Ty.ptr inner => some inner
          | _ => none
      match t? with
      | none => (Exec.fail GoError.errBadInterface, i)
      | some t =>
        if t.isInterface = false then
          (Exec.fail GoError.errBadInterface, i)
        else
          match i.add t (some v) with
          | (Exec.ok _, i2) => (Exec.ok (), i2)
          | (Exec.fail e, i2) => (Exec.fail e, i2)
          | (Exec.crash, i2) => (Exec.crash, i2)

/-- The type `AddVivifier` indexes a vivifier under: a `reflect.Type`
token is used as-is; any other token's runtime type is taken, and only a
pointer-to-interface is dereferenced to the interface. -/
def vivKey : TypeTok → Ty
  | TypeTok.typ t => t
  | TypeTok.val w =>
    match w.ty with
    | Ty.ptr inner => if inner.isInterface then inner else w.ty
    | _ => w.ty

/-- `Injector.AddVivifier`: reject a nil vivifier, determine the index
type via `vivKey`, reject duplicates, store the vivifier.  A nil type
token (`none`) panics (`reflect.TypeOf(nil)` is nil, `Kind()` panics). -/
def Injector.AddVivifier (i : Injector) (obj : Option TypeTok) (viv : Option Vivifier) :
    Exec Unit × Injector :=
  match viv with
  | none => (Exec.fail GoError.errNil, i)
  | some v =>
    match obj with
    | none => (Exec.crash, i)
    | some tok =>
      let t := vivKey tok
      match i.Vivifiers with
      | none => (Exec.ok (), { i with Vivifiers := some [(t, v)] })
      | some m =>
        if (lookupTy m t).isSome then
          (Exec.fail (GoError.errDuplicate t), i)
        else
          (Exec.ok (), { i with Vivifiers := some (m ++ [(t, v)]) })

/-- Ghost record of one vivifier invocation inside `Get`. -/
inductive VivCall where
  | specific (t : Ty)
  | fallback (t : Ty)
deriving DecidableEq, Repr

/-- `Injector.Get`: cached slot, else type-specific vivifier, else
fallback vivifier, else `ErrMissingValue`.  A vivifier error is returned
verbatim with no state change; a vivifier's value is stored through
`add`.  The third component is the ghost list of vivifier invocations. -/
def Injector.Get (i : Injector) (typ : Ty) : Exec Value × Injector × List VivCall :=
  -- First, look in Objects
  match objLookup i typ with
  | some val => (Exec.ok val, i, [])
  | none =>
    -- OK, maybe we can vivify it?
    match vivLookup i typ with
    | some viv =>
      match viv typ with
      | (_, some e) => (Exec.fail e, i, [VivCall.specific typ])
      | (obj, none) =>
        -- Add to the Injector
        match i.add typ obj with
        | (r, i2) => (r, i2, [VivCall.specific typ])
    | none =>
      -- OK, try the fallback
      match i.Fallback with
      | some fb =>
        match fb typ with
        | (_, some e) => (Exec.fail e, i, [VivCall.fallback typ])
        | (obj, none) =>
          match i.add typ obj with
          | (r, i2) => (r, i2, [VivCall.fallback typ])
      | none => (Exec.fail (GoError.errMissingValue typ), i, [])

/-- A function value (`reflect.Value` of `Kind() == Func`): its declared
parameter types, variadic flag, declared result types, and body.  The
body receives the argument list; its `Option GoError` result models the
content of the single error-shaped return where present (`none` = the
nil interface). -/
structure GoFunc where
  params : List Ty
  variadic : Bool
  rets : List Ty
  body : List Value → Option GoError

/-- The `meth` argument to `CallMethod`: an invalid `reflect.Value`, a
valid non-function value, or a function. -/
inductive MethVal where
  | invalid
  | notFunc (v : Value)
  | fn (f : GoFunc)

/-- The signature validation of `CallMethod`: variadic, more than one
result, or a single non-error-shaped result. -/
def badShape (f : GoFunc) : Bool :=
  f.variadic || decide (f.rets.length > 1) ||
    (f.rets.length == 1 && !(f.rets.headD Ty.err).assignableTo Ty.err)

/-- The parameter-resolution loop of `CallMethod`: `Get` each parameter
type in order, aborting on the first failure.  The third component is
the ghost list of types actually requested from `Get`. -/
def resolveParams (i : Injector) (ps : List Ty) : Exec (List Value) × Injector × List Ty :=
  match ps with
  | [] => (Exec.ok [], i, [])
  | t :: rest =>
    match i.Get t with
    | (Exec.ok v, i2, _) =>
      match resolveParams i2 rest with
      | (Exec.ok vs, i3, req) => (Exec.ok (v :: vs), i3, t :: req)
      | (Exec.fail e, i3, req) => (Exec.fail e, i3, t :: req)
      | (Exec.crash, i3, req) => (Exec.crash, i3, t :: req)
    | (Exec.fail e, i2, _) => (Exec.fail e, i2, [t])
    | (Exec.crash, i2, _) => (Exec.crash, i2, [t])

/-- Ghost trace of a `CallMethod` run: the types requested from `Get`,
and `some args` when the target was invoked with `args`. -/
structure CallTrace where
  requested : List Ty
  called : Option (List Value)

/-- `Injector.CallMethod`: validate the handle and its shape, resolve
every parameter through `Get`, invoke the target, and surface its
error-shaped result.  `result[0].Interface().(error)` on a returned nil
interface is a runtime panic (`Exec.crash`). -/
def Injector.CallMethod (i : Injector) (meth : MethVal) : Exec Unit × Injector × CallTrace :=
  match meth with
  | MethVal.invalid => (Exec.fail GoError.errNoMethod, i, ⟨[], none⟩)
  | MethVal.notFunc _ => (Exec.fail GoError.errBadMethod, i, ⟨[], none⟩)
  | MethVal.fn f =>
    if badShape f then
      (Exec.fail GoError.errBadMethod, i, ⟨[], none⟩)
    else
      -- Put together the list of input values
      match resolveParams i f.params with
      | (Exec.ok values, i2, req) =>
        -- Call the method
        let res := f.body values
        if f.rets.length > 0 then
          match res with
          | some e => (Exec.fail e, i2, ⟨req, some values⟩)
          | none => (Exec.crash, i2, ⟨req, some values⟩)
        else
          (Exec.ok (), i2, ⟨req, some values⟩)
      | (Exec.fail e, i2, req) => (Exec.fail e, i2, ⟨req, none⟩)
      | (Exec.crash, i2, req) => (Exec.crash, i2, ⟨req, none⟩)

-- Concrete material for counterexamples and witnesses.

/-- An integer value. -/
def v5 : Value := ⟨Ty.int, 5⟩

/-- The empty injector. -/
def emptyInj : Injector := ⟨none, none, none⟩

/-- A vivifier that always produces a fresh value of the requested type. -/
def vivX : Vivifier := fun t => (some ⟨t, 7⟩, none)

/-- A vivifier that returns a nil value together with a nil error. -/
def nilViv : Vivifier := fun _ => (none, none)

-- General lemmas about the embedded operations.

/-- Every type is Go-assignable to itself. -/
theorem assignableTo_self (t : Ty) : t.assignableTo t = true := by
  simp [Ty.assignableTo]

/-- Appending a binding for an absent key makes it found. -/
theorem lookupTy_append_self {α : Type} (m : List (Ty × α)) (t : Ty) (v : α)
    (h : lookupTy m t = none) : lookupTy (m ++ [(t, v)]) t = some v := by
  induction m with
  | nil => simp [lookupTy]
  | cons p rest ih =>
    obtain ⟨k, w⟩ := p
    by_cases hk : k = t
    · simp [lookupTy, hk] at h
    · simp only [lookupTy, List.cons_append, if_neg hk] at h ⊢
      exact ih h

/-- A key found after appending one binding was found before, or is that
binding's key. -/
theorem lookupTy_append_mem {α : Type} (m : List (Ty × α)) (t u : Ty) (v : α)
    (h : (lookupTy (m ++ [(t, v)]) u).isSome = true) :
    (lookupTy m u).isSome = true ∨ u = t := by
  induction m with
  | nil =>
    by_cases ht : t = u
    · right; exact ht.symm
    · simp [lookupTy, if_neg ht] at h
  | cons p rest ih =>
    obtain ⟨k, w⟩ := p
    by_cases hk : k = u
    · left; simp [lookupTy, if_pos hk]
    · simp only [lookupTy, List.cons_append, if_neg hk] at h ⊢
      exact ih h

/-- After a successful `add` for type `t`, a slot for `t` holds the
returned value. -/
theorem add_ok_lookup (i : Injector) (t : Ty) (o : Option Value) (v : Value)
    (i2 : Injector) (h : i.add t o = (Exec.ok v, i2)) : objLookup i2 t = some v := by
  unfold Injector.add at h
  cases o with
  | none => simp at h
  | some val =>
    dsimp only at h
    by_cases ha : val.ty.assignableTo t = false
    · rw [if_pos ha] at h
      simp at h
    · rw [if_neg ha] at h
      cases hO : i.Objects with
      | none =>
        rw [hO] at h
        dsimp only at h
        simp only [Prod.mk.injEq, Exec.ok.injEq] at h
        obtain ⟨h1, h2⟩ := h
        subst h1
        rw [← h2]
        simp [objLookup, lookupTy]
      | some m =>
        rw [hO] at h
        dsimp only at h
        by_cases hd : (lookupTy m t).isSome = true
        · rw [if_pos hd] at h
          simp at h
        · rw [if_neg hd] at h
          simp only [Prod.mk.injEq, Exec.ok.injEq] at h
          obtain ⟨h1, h2⟩ := h
          subst h1
          rw [← h2]
          simp only [objLookup]
          exact lookupTy_append_self m t val (Option.not_isSome_iff_eq_none.mp hd)

/-- `add` either succeeds or leaves the injector unchanged. -/
theorem add_cases (i : Injector) (t : Ty) (o : Option Value) :
    (∃ v, (i.add t o).1 = Exec.ok v) ∨ (i.add t o).2 = i := by
  unfold Injector.add
  cases o with
  | none => right; rfl
  | some val =>
    dsimp only
    by_cases ha : val.ty.assignableTo t = false
    · rw [if_pos ha]; right; rfl
    · rw [if_neg ha]
      cases i.Objects with
      | none => left; exact ⟨val, rfl⟩
      | some m =>
        dsimp only
        by_cases hd : (lookupTy m t).isSome = true
        · rw [if_pos hd]; right; rfl
        · rw [if_neg hd]; left; exact ⟨val, rfl⟩

/-- Every slot present after an `add` for `t` was present before, or is
the slot for `t` itself. -/
theorem add_keys (i : Injector) (t : Ty) (o : Option Value) (u : Ty)
    (h : isCached (i.add t o).2 u = true) : isCached i u = true ∨ u = t := by
  unfold Injector.add at h
  cases o with
  | none => left; exact h
  | some val =>
    dsimp only at h
    by_cases ha : val.ty.assignableTo t = false
    · rw [if_pos ha] at h; left; exact h
    · rw [if_neg ha] at h
      cases hO : i.Objects with
      | none =>
        rw [hO] at h
        dsimp only at h
        simp only [isCached, objLookup, lookupTy] at h
        by_cases ht : t = u
        · right; exact ht.symm
        · rw [if_neg ht] at h
          simp [lookupTy] at h
      | some m =>
        rw [hO] at h
        dsimp only at h
        by_cases hd : (lookupTy m t).isSome = true
        · rw [if_pos hd] at h; left; exact h
        · rw [if_neg hd] at h
          simp only [isCached, objLookup] at h
          rcases lookupTy_append_mem m t u val h with h2 | h2
          · left; simp [isCached, objLookup, hO, h2]
          · right; exact h2

/-- A cached slot is returned as-is: no state change, no vivification. -/
theorem get_cached (i : Injector) (t : Ty) (v : Value) (h : objLookup i t = some v) :
    i.Get t = (Exec.ok v, i, []) := by
  unfold Injector.Get
  rw [h]

/-- Unfolding of `Get` when no slot is cached and a specific vivifier is
registered. -/
theorem get_eq_spec (i : Injector) (t : Ty) (viv : Vivifier)
    (ho : objLookup i t = none) (hv : vivLookup i t = some viv) :
    i.Get t =
      (match viv t with
       | (_, some e) => (Exec.fail e, i, [VivCall.specific t])
       | (o, none) =>
         match i.add t o with
         | (r, i2) => (r, i2, [VivCall.specific t])) := by
  unfold Injector.Get
  rw [ho]
  dsimp only
  rw [hv]

/-- Unfolding of `Get` when no slot is cached, no specific vivifier is
registered, and a fallback is installed. -/
theorem get_eq_fb (i : Injector) (t : Ty) (fb : Vivifier)
    (ho : objLookup i t = none) (hv : vivLookup i t = none)
    (hf : i.Fallback = some fb) :
    i.Get t =
      (match fb t with
       | (_, some e) => (Exec.fail e, i, [VivCall.fallback t])
       | (o, none) =>
         match i.add t o with
         | (r, i2) => (r, i2, [VivCall.fallback t])) := by
  unfold Injector.Get
  rw [ho]
  dsimp only
  rw [hv]
  dsimp only
  rw [hf]

/-- Unfolding of `Get` when nothing at all can serve the type. -/
theorem get_eq_missing (i : Injector) (t : Ty)
    (ho : objLookup i t = none) (hv : vivLookup i t = none)
    (hf : i.Fallback = none) :
    i.Get t = (Exec.fail (GoError.errMissingValue t), i, []) := by
  unfold Injector.Get
  rw [ho]
  dsimp only
  rw [hv]
  dsimp only
  rw [hf]

/-- After a successful `Get`, the returned value is cached. -/
theorem get_ok_cached (i : Injector) (t : Ty) (v : Value) (i1 : Injector)
    (c : List VivCall) (h : i.Get t = (Exec.ok v, i1, c)) : objLookup i1 t = some v := by
  cases ho : objLookup i t with
  | some w =>
    rw [get_cached i t w ho] at h
    simp only [Prod.mk.injEq, Exec.ok.injEq] at h
    obtain ⟨h1, h2, -⟩ := h
    subst h1
    rw [← h2]
    exact ho
  | none =>
    cases hv : vivLookup i t with
    | some viv =>
      rw [get_eq_spec i t viv ho hv] at h
      cases hvt : viv t with
      | mk o oe =>
        rw [hvt] at h
        cases oe with
        | some e => simp at h
        | none =>
          dsimp only at h
          cases hA : i.add t o with
          | mk r i2 =>
            rw [hA] at h
            simp only [Prod.mk.injEq] at h
            obtain ⟨h1, h2, -⟩ := h
            rw [h1, h2] at hA
            exact add_ok_lookup i t o v i1 hA
    | none =>
      cases hf : i.Fallback with
      | none => rw [get_eq_missing i t ho hv hf] at h; simp at h
      | some fb =>
        rw [get_eq_fb i t fb ho hv hf] at h
        cases hvt : fb t with
        | mk o oe =>
          rw [hvt] at h
          cases oe with
          | some e => simp at h
          | none =>
            dsimp only at h
            cases hA : i.add t o with
            | mk r i2 =>
              rw [hA] at h
              simp only [Prod.mk.injEq] at h
              obtain ⟨h1, h2, -⟩ := h
              rw [h1, h2] at hA
              exact add_ok_lookup i t o v i1 hA

/-- A successful `Get` caches its result: asking again is a pure cache
hit returning the same value, with no further vivification. -/
theorem get_ok_idem (i : Injector) (t : Ty) (v : Value) (i1 : Injector)
    (c : List VivCall) (h : i.Get t = (Exec.ok v, i1, c)) :
    i1.Get t = (Exec.ok v, i1, []) :=
  get_cached i1 t v (get_ok_cached i t v i1 c h)

/-- `Get` either succeeds or leaves the injector unchanged. -/
theorem get_state_cases (i : Injector) (t : Ty) :
    (∃ v, (i.Get t).1 = Exec.ok v) ∨ (i.Get t).2.1 = i := by
  cases ho : objLookup i t with
  | some w => left; exact ⟨w, by rw [get_cached i t w ho]⟩
  | none =>
    cases hv : vivLookup i t with
    | some viv =>
      rw [get_eq_spec i t viv ho hv]
      cases hvt : viv t with
      | mk o oe =>
        cases oe with
        | some e => right; rfl
        | none =>
          dsimp only
          cases hA : i.add t o with
          | mk r i2 =>
            have hc := add_cases i t o
            rw [hA] at hc
            rcases hc with ⟨w, hw⟩ | hi
            · left; exact ⟨w, hw⟩
            · right; exact hi
    | none =>
      cases hf : i.Fallback with
      | none => rw [get_eq_missing i t ho hv hf]; right; rfl
      | some fb =>
        rw [get_eq_fb i t fb ho hv hf]
        cases hvt : fb t with
        | mk o oe =>
          cases oe with
          | some e => right; rfl
          | none =>
            dsimp only
            cases hA : i.add t o with
            | mk r i2 =>
              have hc := add_cases i t o
              rw [hA] at hc
              rcases hc with ⟨w, hw⟩ | hi
              · left; exact ⟨w, hw⟩
              · right; exact hi

/-- Every slot present after a `Get` for `t` was present before, or is
the slot for `t` itself. -/
theorem get_keys (i : Injector) (t u : Ty)
    (h : isCached (i.Get t).2.1 u = true) : isCached i u = true ∨ u = t := by
  cases ho : objLookup i t with
  | some w => rw [get_cached i t w ho] at h; left; exact h
  | none =>
    cases hv : vivLookup i t with
    | some viv =>
      rw [get_eq_spec i t viv ho hv] at h
      cases hvt : viv t with
      | mk o oe =>
        rw [hvt] at h
        cases oe with
        | some e => left; exact h
        | none =>
          dsimp only at h
          cases hA : i.add t o with
          | mk r i2 =>
            rw [hA] at h
            have hk := add_keys i t o u
            rw [hA] at hk
            exact hk h
    | none =>
      cases hf : i.Fallback with
      | none => rw [get_eq_missing i t ho hv hf] at h; left; exact h
      | some fb =>
        rw [get_eq_fb i t fb ho hv hf] at h
        cases hvt : fb t with
        | mk o oe =>
          rw [hvt] at h
          cases oe with
          | some e => left; exact h
          | none =>
            dsimp only at h
            cases hA : i.add t o with
            | mk r i2 =>
              rw [hA] at h
              have hk := add_keys i t o u
              rw [hA] at hk
              exact hk h

/-- A successful resolution run requested exactly the parameter list. -/
theorem resolve_ok_req (ps : List Ty) : ∀ (i i3 : Injector) (vs : List Value) (req : List Ty),
    resolveParams i ps = (Exec.ok vs, i3, req) → req = ps := by
  induction ps with
  | nil =>
    intro i i3 vs req h
    unfold resolveParams at h
    simp only [Prod.mk.injEq] at h
    exact h.2.2.symm
  | cons t rest ih =>
    intro i i3 vs req h
    unfold resolveParams at h
    cases hG : i.Get t with
    | mk r p =>
      cases p with
      | mk i2 c =>
        rw [hG] at h
        cases r with
        | ok v =>
          dsimp only at h
          cases hR : resolveParams i2 rest with
          | mk r2 q =>
            cases q with
            | mk i4 req2 =>
              rw [hR] at h
              cases r2 with
              | ok vs2 =>
                simp only [Prod.mk.injEq] at h
                rw [← h.2.2, ih i2 i4 vs2 req2 hR]
              | fail e => simp at h
              | crash => simp at h
        | fail e => simp at h
        | crash => simp at h

/-- Splitting a resolution run at a failing suffix: a successful run over
the first parameters followed by a failing run over the rest. -/
theorem resolve_append_fail (l1 : List Ty) :
    ∀ (l2 : List Ty) (i i1 i2 : Injector) (vs : List Value) (e : GoError) (req2 : List Ty),
    resolveParams i l1 = (Exec.ok vs, i1, l1) →
    resolveParams i1 l2 = (Exec.fail e, i2, req2) →
    resolveParams i (l1 ++ l2) = (Exec.fail e, i2, l1 ++ req2) := by
  induction l1 with
  | nil =>
    intro l2 i i1 i2 vs e req2 h1 h2
    unfold resolveParams at h1
    simp only [Prod.mk.injEq] at h1
    rw [List.nil_append, List.nil_append, h1.2.1]
    exact h2
  | cons t rest ih =>
    intro l2 i i1 i2 vs e req2 h1 h2
    unfold resolveParams at h1
    cases hG : i.Get t with
    | mk r p =>
      cases p with
      | mk ia c =>
        rw [hG] at h1
        cases r with
        | ok v =>
          dsimp only at h1
          cases hR : resolveParams ia rest with
          | mk r2 q =>
            cases q with
            | mk ib req3 =>
              rw [hR] at h1
              cases r2 with
              | ok vs2 =>
                simp only [Prod.mk.injEq, Exec.ok.injEq] at h1
                obtain ⟨-, hb, hreq⟩ := h1
                have hreq3 : req3 = rest := by
                  injection hreq
                have hRb : resolveParams ia rest = (Exec.ok vs2, i1, rest) := by
                  rw [hR, hb, hreq3]
                have := ih l2 ia i1 i2 vs2 e req2 hRb h2
                show resolveParams i (t :: (rest ++ l2)) = (Exec.fail e, i2, t :: rest ++ req2)
                unfold resolveParams
                rw [hG]
                dsimp only
                rw [this]
                rfl
              | fail e2 => simp at h1
              | crash => simp at h1
        | fail e2 => simp at h1
        | crash => simp at h1

/-- Every slot present after a resolution run was present before, or is a
slot for one of the requested types. -/
theorem resolve_keys (ps : List Ty) : ∀ (i : Injector) (u : Ty),
    isCached (resolveParams i ps).2.1 u = true →
    isCached i u = true ∨ u ∈ (resolveParams i ps).2.2 := by
  induction ps with
  | nil =>
    intro i u h
    left
    exact h
  | cons t rest ih =>
    intro i u h
    unfold resolveParams at h ⊢
    cases hG : i.Get t with
    | mk r p =>
      cases p with
      | mk i2 c =>
        have hgk := get_keys i t u
        rw [hG] at h hgk
        cases r with
        | ok v =>
          dsimp only at h ⊢
          cases hR : resolveParams i2 rest with
          | mk r2 q =>
            cases q with
            | mk i3 req2 =>
              have hik := ih i2 u
              rw [hR] at h hik
              cases r2 with
              | ok vs =>
                dsimp only at h ⊢
                rcases hik h with hc | hm
                · rcases hgk hc with hc2 | he
                  · left; exact hc2
                  · right; rw [he]; exact List.mem_cons_self t req2
                · right; exact List.mem_cons_of_mem t hm
              | fail e =>
                dsimp only at h ⊢
                rcases hik h with hc | hm
                · rcases hgk hc with hc2 | he
                  · left; exact hc2
                  · right; rw [he]; exact List.mem_cons_self t req2
                · right; exact List.mem_cons_of_mem t hm
              | crash =>
                dsimp only at h ⊢
                rcases hik h with hc | hm
                · rcases hgk hc with hc2 | he
                  · left; exact hc2
                  · right; rw [he]; exact List.mem_cons_self t req2
                · right; exact List.mem_cons_of_mem t hm
        | fail e =>
          dsimp only at h ⊢
          rcases hgk h with hc | he
          · left; exact hc
          · right; rw [he]; exact List.mem_cons_self t []
        | crash =>
          dsimp only at h ⊢
          rcases hgk h with hc | he
          · left; exact hc
          · right; rw [he]; exact List.mem_cons_self t []

-- Claim theorems.

/-- C5: `Get(T)` follows the fixed resolution order cached value, then
type-specific vivifier, then fallback vivifier, then `MissingValue`: a
cached slot is returned with no side effects and no vivifier invocation;
with no cached slot, a registered specific vivifier is the only one
invoked (even if a fallback is installed); with neither, an installed
fallback is the one invoked; with nothing, `Get` fails with
`MissingValue` and leaves the registry unchanged. -/
theorem c5_resolution_order (i : Injector) (t : Ty) :
    (∀ v, objLookup i t = some v → i.Get t = (Exec.ok v, i, [])) ∧
    (objLookup i t = none → ∀ viv, vivLookup i t = some viv →
      (i.Get t).2.2 = [VivCall.specific t]) ∧
    (objLookup i t = none → vivLookup i t = none → ∀ fb, i.Fallback = some fb →
      (i.Get t).2.2 = [VivCall.fallback t]) ∧
    (objLookup i t = none → vivLookup i t = none → i.Fallback = none →
      i.Get t = (Exec.fail (GoError.errMissingValue t), i, [])) := by
  refine ⟨fun v hv => get_cached i t v hv, ?_, ?_, ?_⟩
  · intro ho viv hv
    rw [get_eq_spec i t viv ho hv]
    cases hvt : viv t with
    | mk o oe =>
      cases oe with
      | some e => rfl
      | none => dsimp only
  · intro ho hv fb hf
    rw [get_eq_fb i t fb ho hv hf]
    cases hvt : fb t with
    | mk o oe =>
      cases oe with
      | some e => rfl
      | none => dsimp only
  · intro ho hv hf
    exact get_eq_missing i t ho hv hf

/-- C5 witness: the four branches of the resolution order at concrete
registries. -/
theorem c5_resolution_order_witness :
    Injector.Get ⟨some [(Ty.int, v5)], none, none⟩ Ty.int =
      (Exec.ok v5, ⟨some [(Ty.int, v5)], none, none⟩, []) ∧
    (Injector.Get ⟨none, some [(Ty.int, vivX)], some vivX⟩ Ty.int).2.2 =
      [VivCall.specific Ty.int] ∧
    (Injector.Get ⟨none, none, some vivX⟩ Ty.int).2.2 = [VivCall.fallback Ty.int] ∧
    Injector.Get emptyInj Ty.int =
      (Exec.fail (GoError.errMissingValue Ty.int), emptyInj, []) := by
  refine ⟨?_, ?_, ?_, ?_⟩
  · exact (c5_resolution_order ⟨some [(Ty.int, v5)], none, none⟩ Ty.int).1 v5 rfl
  · exact (c5_resolution_order ⟨none, some [(Ty.int, vivX)], some vivX⟩ Ty.int).2.1
      rfl vivX rfl
  · exact (c5_resolution_order ⟨none, none, some vivX⟩ Ty.int).2.2.1 rfl rfl vivX rfl
  · exact (c5_resolution_order emptyInj Ty.int).2.2.2 rfl rfl rfl

/-- C6: for a type with no cached slot and a registered specific
vivifier that succeeds (returns, without error, a value assignable to
the type), two consecutive `Get` calls invoke the vivifier exactly once
in the first call and none in the second, and both calls return the
identical value: the first call caches its result and the second is a
pure cache hit that does not change the registry. -/
theorem c6_memoized_single_vivify (i : Injector) (t : Ty) (viv : Vivifier) (v : Value)
    (hobj : objLookup i t = none)
    (hviv : vivLookup i t = some viv)
    (hres : viv t = (some v, none))
    (hass : v.ty.assignableTo t = true) :
    ∃ i1, i.Get t = (Exec.ok v, i1, [VivCall.specific t]) ∧
      i1.Get t = (Exec.ok v, i1, []) := by
  have hadd : ∃ i1, i.add t (some v) = (Exec.ok v, i1) := by
    unfold Injector.add
    dsimp only
    rw [hass]
    rw [if_neg (by simp)]
    cases hO : i.Objects with
    | none => exact ⟨_, rfl⟩
    | some m =>
      dsimp only
      have hm : lookupTy m t = none := by
        unfold objLookup at hobj
        rw [hO] at hobj
        exact hobj
      rw [hm]
      rw [if_neg (by simp)]
      exact ⟨_, rfl⟩
  obtain ⟨i1, hadd⟩ := hadd
  have h1 : i.Get t = (Exec.ok v, i1, [VivCall.specific t]) := by
    rw [get_eq_spec i t viv hobj hviv, hres]
    dsimp only
    rw [hadd]
  exact ⟨i1, h1, get_ok_idem i t v i1 [VivCall.specific t] h1⟩

/-- C6 witness: a concrete registry with an `int` vivifier; the first
`Get` vivifies and caches, the second is a cache hit with the identical
value. -/
theorem c6_memoized_single_vivify_witness :
    Injector.Get ⟨none, some [(Ty.int, vivX)], none⟩ Ty.int =
      (Exec.ok ⟨Ty.int, 7⟩,
        ⟨some [(Ty.int, ⟨Ty.int, 7⟩)], some [(Ty.int, vivX)], none⟩,
        [VivCall.specific Ty.int]) ∧
    Injector.Get ⟨some [(Ty.int, ⟨Ty.int, 7⟩)], some [(Ty.int, vivX)], none⟩ Ty.int =
      (Exec.ok ⟨Ty.int, 7⟩,
        ⟨some [(Ty.int, ⟨Ty.int, 7⟩)], some [(Ty.int, vivX)], none⟩, []) := by
  obtain ⟨i1, h1, h2⟩ := c6_memoized_single_vivify ⟨none, some [(Ty.int, vivX)], none⟩
    Ty.int vivX ⟨Ty.int, 7⟩ rfl rfl rfl rfl
  have hcomp : Injector.Get ⟨none, some [(Ty.int, vivX)], none⟩ Ty.int =
      (Exec.ok (⟨Ty.int, 7⟩ : Value),
        ⟨some [(Ty.int, ⟨Ty.int, 7⟩)], some [(Ty.int, vivX)], none⟩,
        [VivCall.specific Ty.int]) := rfl
  have hi : i1 = ⟨some [(Ty.int, ⟨Ty.int, 7⟩)], some [(Ty.int, vivX)], none⟩ := by
    have hh := h1.symm.trans hcomp
    simp only [Prod.mk.injEq] at hh
    exact hh.2.1
  subst hi
  exact ⟨h1, h2⟩

/-- C7: when the vivifier serving a type (specific or fallback) returns
an error, `Get` fails with exactly that error object, unchanged, no slot
is cached, and the registry is left completely unmodified — so a
subsequent `Get` for the same type repeats the identical vivifier
invocation (failures are not memoized). -/
theorem c7_vivifier_error_propagated (i : Injector) (t : Ty) (viv : Vivifier)
    (o : Option Value) (e : GoError) :
    (objLookup i t = none → vivLookup i t = some viv → viv t = (o, some e) →
      i.Get t = (Exec.fail e, i, [VivCall.specific t])) ∧
    (objLookup i t = none → vivLookup i t = none → i.Fallback = some viv →
      viv t = (o, some e) →
      i.Get t = (Exec.fail e, i, [VivCall.fallback t])) := by
  constructor
  · intro ho hv hr
    rw [get_eq_spec i t viv ho hv, hr]
  · intro ho hv hf hr
    rw [get_eq_fb i t viv ho hv hf, hr]

/-- C7 witness: a specific and a fallback vivifier that fail with a
non-injector error; `Get` returns that error with the registry intact,
so the repeated call is the very same invocation. -/
theorem c7_vivifier_error_propagated_witness :
    Injector.Get ⟨none, some [(Ty.int, fun _ => (none, some (GoError.other 9)))], none⟩
      Ty.int =
      (Exec.fail (GoError.other 9),
        ⟨none, some [(Ty.int, fun _ => (none, some (GoError.other 9)))], none⟩,
        [VivCall.specific Ty.int]) ∧
    Injector.Get ⟨none, none, some fun _ => (none, some (GoError.other 9))⟩ Ty.int =
      (Exec.fail (GoError.other 9),
        ⟨none, none, some fun _ => (none, some (GoError.other 9))⟩,
        [VivCall.fallback Ty.int]) := by
  constructor
  · exact (c7_vivifier_error_propagated
      ⟨none, some [(Ty.int, fun _ => (none, some (GoError.other 9)))], none⟩
      Ty.int (fun _ => (none, some (GoError.other 9))) none (GoError.other 9)).1
      rfl rfl rfl
  · exact (c7_vivifier_error_propagated
      ⟨none, none, some fun _ => (none, some (GoError.other 9))⟩
      Ty.int (fun _ => (none, some (GoError.other 9))) none (GoError.other 9)).2
      rfl rfl rfl rfl

/-- C10: when the vivifier serving a type (specific or fallback)
returns, without error, a value whose runtime type is not assignable to
the requested type, `Get` fails with `BadType` and no slot is cached:
the registry, including its `Objects` mapping, is left unchanged. -/
theorem c10_bad_type_not_cached (i : Injector) (t : Ty) (viv : Vivifier) (v : Value)
    (hass : v.ty.assignableTo t = false) :
    (objLookup i t = none → vivLookup i t = some viv → viv t = (some v, none) →
      i.Get t = (Exec.fail (GoError.errBadType v t), i, [VivCall.specific t])) ∧
    (objLookup i t = none → vivLookup i t = none → i.Fallback = some viv →
      viv t = (some v, none) →
      i.Get t = (Exec.fail (GoError.errBadType v t), i, [VivCall.fallback t])) := by
  have hadd : i.add t (some v) = (Exec.fail (GoError.errBadType v t), i) := by
    unfold Injector.add
    dsimp only
    rw [hass]
    rw [if_pos rfl]
  constructor
  · intro ho hv hr
    rw [get_eq_spec i t viv ho hv, hr]
    dsimp only
    rw [hadd]
  · intro ho hv hf hr
    rw [get_eq_fb i t viv ho hv hf, hr]
    dsimp only
    rw [hadd]

/-- C10 witness: a vivifier producing a string value for a requested int
slot; `Get` fails with `BadType` and the registry is unchanged, in both
the specific and the fallback position. -/
theorem c10_bad_type_not_cached_witness :
    Injector.Get ⟨none, some [(Ty.int, fun _ => (some ⟨Ty.str, 1⟩, none))], none⟩ Ty.int =
      (Exec.fail (GoError.errBadType ⟨Ty.str, 1⟩ Ty.int),
        ⟨none, some [(Ty.int, fun _ => (some ⟨Ty.str, 1⟩, none))], none⟩,
        [VivCall.specific Ty.int]) ∧
    Injector.Get ⟨none, none, some fun _ => (some ⟨Ty.str, 1⟩, none)⟩ Ty.int =
      (Exec.fail (GoError.errBadType ⟨Ty.str, 1⟩ Ty.int),
        ⟨none, none, some fun _ => (some ⟨Ty.str, 1⟩, none)⟩,
        [VivCall.fallback Ty.int]) := by
  constructor
  · exact (c10_bad_type_not_cached
      ⟨none, some [(Ty.int, fun _ => (some ⟨Ty.str, 1⟩, none))], none⟩
      Ty.int (fun _ => (some ⟨Ty.str, 1⟩, none)) ⟨Ty.str, 1⟩ rfl).1 rfl rfl rfl
  · exact (c10_bad_type_not_cached
      ⟨none, none, some fun _ => (some ⟨Ty.str, 1⟩, none)⟩
      Ty.int (fun _ => (some ⟨Ty.str, 1⟩, none)) ⟨Ty.str, 1⟩ rfl).2 rfl rfl rfl rfl

/-- C3 counterexample: with a vivifier that returns a nil value together
with a nil error, `Get` does not fail with a returned error as the claim
states — it panics (`reflect.ValueOf(nil).Type()` inside `add`), shown
here by the run ending in `Exec.crash` rather than `Exec.fail`. -/
theorem c3_nil_viv_crash_cex :
    Injector.Get ⟨none, some [(Ty.int, nilViv)], none⟩ Ty.int =
      (Exec.crash, ⟨none, some [(Ty.int, nilViv)], none⟩, [VivCall.specific Ty.int]) ∧
    (Injector.Get ⟨none, some [(Ty.int, nilViv)], none⟩ Ty.int).1 ≠
      Exec.fail GoError.errNil := ⟨rfl, by decide⟩

/-- C3 (amended): a nil value is never accepted into a value slot.
`Add` and `AddInterface` reject a nil value with `NilValue` before any
mutation; but when the vivifier serving a type — type-specific or
fallback — returns a nil value together with a nil error, `Get` does
not return an error: it panics (crashes), still without mutating the
registry. -/
theorem c3_nil_never_stored (i : Injector) (tok : TypeTok) (t : Ty) (viv : Vivifier) :
    i.Add none = (Exec.fail GoError.errNil, i) ∧
    i.AddInterface (some tok) none = (Exec.fail GoError.errNil, i) ∧
    (objLookup i t = none → vivLookup i t = some viv → viv t = (none, none) →
      i.Get t = (Exec.crash, i, [VivCall.specific t])) ∧
    (objLookup i t = none → vivLookup i t = none → i.Fallback = some viv →
      viv t = (none, none) →
      i.Get t = (Exec.crash, i, [VivCall.fallback t])) := by
  refine ⟨rfl, rfl, ?_, ?_⟩
  · intro ho hv hr
    rw [get_eq_spec i t viv ho hv, hr]
    rfl
  · intro ho hv hf hr
    rw [get_eq_fb i t viv ho hv hf, hr]
    rfl

/-- C3 witness: the nil-rejection equations and the vivifier-nil crash
at concrete registries, for both the type-specific and the fallback
vivifier position. -/
theorem c3_nil_never_stored_witness :
    Injector.Add ⟨none, some [(Ty.int, nilViv)], none⟩ none =
      (Exec.fail GoError.errNil, ⟨none, some [(Ty.int, nilViv)], none⟩) ∧
    Injector.AddInterface ⟨none, some [(Ty.int, nilViv)], none⟩
      (some (TypeTok.typ Ty.err)) none =
      (Exec.fail GoError.errNil, ⟨none, some [(Ty.int, nilViv)], none⟩) ∧
    Injector.Get ⟨none, some [(Ty.int, nilViv)], none⟩ Ty.str =
      (Exec.fail (GoError.errMissingValue Ty.str),
        ⟨none, some [(Ty.int, nilViv)], none⟩, []) ∧
    Injector.Get ⟨none, some [(Ty.str, nilViv)], none⟩ Ty.str =
      (Exec.crash, ⟨none, some [(Ty.str, nilViv)], none⟩, [VivCall.specific Ty.str]) ∧
    Injector.Get ⟨none, none, some nilViv⟩ Ty.str =
      (Exec.crash, ⟨none, none, some nilViv⟩, [VivCall.fallback Ty.str]) := by
  have h := c3_nil_never_stored ⟨none, some [(Ty.str, nilViv)], none⟩
    (TypeTok.typ Ty.err) Ty.str nilViv
  have hf := c3_nil_never_stored ⟨none, none, some nilViv⟩
    (TypeTok.typ Ty.err) Ty.str nilViv
  exact ⟨rfl, rfl, rfl, h.2.2.1 rfl rfl rfl, hf.2.2.2 rfl rfl rfl rfl⟩

/-- C9: for a type already occupied by a value slot, a second `Add` (of
a non-nil value of that type) or `AddInterface` (of a non-nil value
implementing the interface) fails with `DuplicateType`, and the whole
registry — `Objects`, `Vivifiers` and `Fallback` — after the failed call
equals the registry before it. -/
theorem c9_duplicate_add_rejected (i : Injector) (v w : Value) (t : Ty) :
    (objLookup i v.ty = some w →
      i.Add (some v) = (Exec.fail (GoError.errDuplicate v.ty), i)) ∧
    (t.isInterface = true → v.ty.assignableTo t = true → objLookup i t = some w →
      i.AddInterface (some (TypeTok.typ t)) (some v) =
        (Exec.fail (GoError.errDuplicate t), i)) := by
  have key : ∀ (u : Ty), v.ty.assignableTo u = true → objLookup i u = some w →
      i.add u (some v) = (Exec.fail (GoError.errDuplicate u), i) := by
    intro u hass ho
    unfold Injector.add
    dsimp only
    rw [hass]
    rw [if_neg (by simp)]
    cases hO : i.Objects with
    | none =>
      unfold objLookup at ho
      rw [hO] at ho
      simp at ho
    | some m =>
      dsimp only
      unfold objLookup at ho
      rw [hO] at ho
      dsimp only at ho
      rw [ho]
      simp
  constructor
  · intro h
    unfold Injector.Add
    dsimp only
    rw [key v.ty (assignableTo_self v.ty) h]
  · intro hi hass ho
    unfold Injector.AddInterface
    dsimp only
    rw [hi]
    rw [if_neg (by simp)]
    rw [key t hass ho]

/-- C9 witness: a second `Add` of an `int` value to a registry that
already holds an `int` slot, and a second `AddInterface` for an
already-occupied interface type, both fail with `DuplicateType` and
leave the registry equal to what it was. -/
theorem c9_duplicate_add_rejected_witness :
    Injector.Add ⟨some [(Ty.int, v5)], none, none⟩ (some ⟨Ty.int, 9⟩) =
      (Exec.fail (GoError.errDuplicate Ty.int), ⟨some [(Ty.int, v5)], none, none⟩) ∧
    Injector.AddInterface ⟨some [(Ty.iface 2, ⟨Ty.named 2, 0⟩)], none, none⟩
      (some (TypeTok.typ (Ty.iface 2))) (some ⟨Ty.named 2, 4⟩) =
      (Exec.fail (GoError.errDuplicate (Ty.iface 2)),
        ⟨some [(Ty.iface 2, ⟨Ty.named 2, 0⟩)], none, none⟩) := by
  constructor
  · exact (c9_duplicate_add_rejected ⟨some [(Ty.int, v5)], none, none⟩
      ⟨Ty.int, 9⟩ v5 Ty.int).1 rfl
  · exact (c9_duplicate_add_rejected ⟨some [(Ty.iface 2, ⟨Ty.named 2, 0⟩)], none, none⟩
      ⟨Ty.named 2, 4⟩ ⟨Ty.named 2, 0⟩ (Ty.iface 2)).2 rfl rfl rfl

/-- C4 counterexample: `AddVivifier` given a `reflect.Type` token of
pointer-to-interface kind indexes the vivifier under the pointer type
itself, not the underlying interface, and a subsequent `Get` for the
interface type does not find it: it fails with `MissingValue` without
any vivifier invocation. -/
theorem c4_type_token_not_resolved_cex :
    Injector.AddVivifier emptyInj (some (TypeTok.typ (Ty.ptr (Ty.iface 0)))) (some vivX) =
      (Exec.ok (), ⟨none, some [(Ty.ptr (Ty.iface 0), vivX)], none⟩) ∧
    Injector.Get ⟨none, some [(Ty.ptr (Ty.iface 0), vivX)], none⟩ (Ty.iface 0) =
      (Exec.fail (GoError.errMissingValue (Ty.iface 0)),
        ⟨none, some [(Ty.ptr (Ty.iface 0), vivX)], none⟩, []) := ⟨rfl, rfl⟩

/-- C4 (amended): only a type token passed as a nil-pointer value (not
as a `reflect.Type`) has the pointer-to-interface idiom resolved: the
vivifier is then indexed under the underlying interface type and a
subsequent `Get` for the interface invokes it.  A token passed as a
`reflect.Type` is used as-is, even when it is of pointer kind. -/
theorem c4_ptr_iface_value_token_resolved (i : Injector) (n d : Nat) (viv : Vivifier)
    (hv : i.Vivifiers = none) (ho : objLookup i (Ty.iface n) = none) :
    (∀ t, vivKey (TypeTok.typ t) = t) ∧
    ∃ i1, i.AddVivifier (some (TypeTok.val ⟨Ty.ptr (Ty.iface n), d⟩)) (some viv) =
        (Exec.ok (), i1) ∧
      vivLookup i1 (Ty.iface n) = some viv ∧
      (i1.Get (Ty.iface n)).2.2 = [VivCall.specific (Ty.iface n)] := by
  refine ⟨fun t => rfl, ?_⟩
  refine ⟨{ i with Vivifiers := some [(Ty.iface n, viv)] }, ?_, ?_, ?_⟩
  · unfold Injector.AddVivifier
    dsimp only
    rw [hv]
    rfl
  · simp [vivLookup, lookupTy]
  · have ho1 : objLookup { i with Vivifiers := some [(Ty.iface n, viv)] }
        (Ty.iface n) = none := ho
    have hv1 : vivLookup { i with Vivifiers := some [(Ty.iface n, viv)] }
        (Ty.iface n) = some viv := by simp [vivLookup, lookupTy]
    rw [get_eq_spec _ _ viv ho1 hv1]
    cases hvt : viv (Ty.iface n) with
    | mk o oe =>
      cases oe with
      | some e => rfl
      | none => dsimp only

/-- C4 witness: registering a vivifier under the nil-pointer-to-
interface value token indexes it under the interface; the vivifier is
found and invoked by a `Get` for the interface type. -/
theorem c4_ptr_iface_value_token_resolved_witness :
    vivKey (TypeTok.typ (Ty.ptr (Ty.iface 1))) = Ty.ptr (Ty.iface 1) ∧
    Injector.AddVivifier emptyInj (some (TypeTok.val ⟨Ty.ptr (Ty.iface 1), 0⟩))
      (some vivX) = (Exec.ok (), ⟨none, some [(Ty.iface 1, vivX)], none⟩) ∧
    vivLookup ⟨none, some [(Ty.iface 1, vivX)], none⟩ (Ty.iface 1) = some vivX ∧
    (Injector.Get ⟨none, some [(Ty.iface 1, vivX)], none⟩ (Ty.iface 1)).2.2 =
      [VivCall.specific (Ty.iface 1)] := by
  obtain ⟨hA, i1, h1, h2, h3⟩ :=
    c4_ptr_iface_value_token_resolved emptyInj 1 0 vivX rfl rfl
  have hcomp : Injector.AddVivifier emptyInj
      (some (TypeTok.val ⟨Ty.ptr (Ty.iface 1), 0⟩)) (some vivX) =
      (Exec.ok (), (⟨none, some [(Ty.iface 1, vivX)], none⟩ : Injector)) := rfl
  have hi : i1 = ⟨none, some [(Ty.iface 1, vivX)], none⟩ := by
    have hh := h1.symm.trans hcomp
    simp only [Prod.mk.injEq] at hh
    exact hh.2
  subst hi
  exact ⟨hA (Ty.ptr (Ty.iface 1)), h1, h2, h3⟩

/-- C1 counterexample: a target with two parameters of identical type is
not rejected by `CallMethod` — with an `int` value registered, a target
taking `(int, int)` resolves both parameters to the same value and is
invoked, returning success rather than `BadMethod`. -/
theorem c1_duplicate_params_accepted_cex :
    Injector.CallMethod ⟨some [(Ty.int, v5)], none, none⟩
      (MethVal.fn ⟨[Ty.int, Ty.int], false, [], fun _ => none⟩) =
      (Exec.ok (), ⟨some [(Ty.int, v5)], none, none⟩,
        ⟨[Ty.int, Ty.int], some [v5, v5]⟩) ∧
    (Injector.CallMethod ⟨some [(Ty.int, v5)], none, none⟩
      (MethVal.fn ⟨[Ty.int, Ty.int], false, [], fun _ => none⟩)).1 ≠
      Exec.fail GoError.errBadMethod := ⟨rfl, by decide⟩

/-- C1 (amended): `CallMethod` performs no duplicate-parameter-type
check at all.  A non-variadic, no-result target whose two parameters
have the same type is accepted: the type is resolved once per parameter
position, the identical registry value binds both positions, and the
target is invoked. -/
theorem c1_duplicate_params_resolved (i i1 : Injector) (t : Ty)
    (b : List Value → Option GoError) (v : Value) (c : List VivCall)
    (h : i.Get t = (Exec.ok v, i1, c)) :
    i.CallMethod (MethVal.fn ⟨[t, t], false, [], b⟩) =
      (Exec.ok (), i1, ⟨[t, t], some [v, v]⟩) := by
  have h2 := get_ok_idem i t v i1 c h
  have hres : resolveParams i [t, t] = (Exec.ok [v, v], i1, [t, t]) := by
    unfold resolveParams
    rw [h]
    dsimp only
    unfold resolveParams
    rw [h2]
    dsimp only
    rfl
  unfold Injector.CallMethod
  dsimp only
  rw [if_neg (by simp [badShape])]
  rw [hres]
  rfl

/-- C1 witness: the amended behavior at a registry holding an `int`
slot and a target taking `(int, int)`. -/
theorem c1_duplicate_params_resolved_witness :
    Injector.CallMethod ⟨some [(Ty.int, v5)], none, none⟩
      (MethVal.fn ⟨[Ty.int, Ty.int], false, [], fun _ => some GoError.errNoMethod⟩) =
      (Exec.ok (), ⟨some [(Ty.int, v5)], none, none⟩,
        ⟨[Ty.int, Ty.int], some [v5, v5]⟩) :=
  c1_duplicate_params_resolved ⟨some [(Ty.int, v5)], none, none⟩
    ⟨some [(Ty.int, v5)], none, none⟩ Ty.int (fun _ => some GoError.errNoMethod) v5 [] rfl

/-- C2: `CallMethod` on a valid target with a single error-shaped return
whose parameters all resolve surfaces a non-nil returned error exactly
as returned — but on a nil returned error the code does not report
success: `result[0].Interface().(error)` is a single-value type
assertion on a nil interface, which panics.  The claim's nil case is the
intended behavior; the code crashes there. -/
theorem c2_error_return_surfaced_nil_crashes :
    Injector.CallMethod emptyInj
      (MethVal.fn ⟨[], false, [Ty.err], fun _ => some (GoError.other 3)⟩) =
      (Exec.fail (GoError.other 3), emptyInj, ⟨[], some []⟩) ∧
    Injector.CallMethod emptyInj (MethVal.fn ⟨[], false, [Ty.err], fun _ => none⟩) =
      (Exec.crash, emptyInj, ⟨[], some []⟩) := ⟨rfl, rfl⟩

/-- C8: when, for a target of valid shape, the first `k` parameters
resolve but resolving the `k`-th-indexed parameter fails, `CallMethod`
propagates exactly that failure, never invokes the target, requests no
parameter past the failing one from `Get`, and ends in the state reached
by the failing `Get`; consequently no slot is cached for any later
parameter whose type was not already cached and was not among the
attempted parameter types. -/
theorem c8_abort_on_param_failure (i ik : Injector) (f : GoFunc) (k : Nat)
    (vs : List Value) (e : GoError)
    (hshape : badShape f = false) (hk : k < f.params.length)
    (hpre : resolveParams i (f.params.take k) = (Exec.ok vs, ik, f.params.take k))
    (hfail : (ik.Get (f.params.get ⟨k, hk⟩)).1 = Exec.fail e) :
    i.CallMethod (MethVal.fn f) =
      (Exec.fail e, ik, ⟨f.params.take (k + 1), none⟩) ∧
    ∀ (j : Nat) (hj : j < f.params.length), k < j →
      isCached i (f.params.get ⟨j, hj⟩) = false →
      f.params.get ⟨j, hj⟩ ∉ f.params.take (k + 1) →
      isCached ik (f.params.get ⟨j, hj⟩) = false := by
  have hst : (ik.Get (f.params.get ⟨k, hk⟩)).2.1 = ik := by
    rcases get_state_cases ik (f.params.get ⟨k, hk⟩) with ⟨w, hw⟩ | hs
    · rw [hfail] at hw
      exact absurd hw (by simp)
    · exact hs
  have hsingle : resolveParams ik (f.params.get ⟨k, hk⟩ :: f.params.drop (k + 1)) =
      (Exec.fail e, ik, [f.params.get ⟨k, hk⟩]) := by
    unfold resolveParams
    cases hGg : ik.Get (f.params.get ⟨k, hk⟩) with
    | mk r p =>
      cases p with
      | mk st cc =>
        rw [hGg] at hfail hst
        dsimp only at hfail hst
        subst hfail
        subst hst
        rfl
  have hsplit : f.params = f.params.take k ++
      (f.params.get ⟨k, hk⟩ :: f.params.drop (k + 1)) := by
    rw [List.cons_get_drop_succ]
    exact (List.take_append_drop k f.params).symm
  have hfull : resolveParams i f.params =
      (Exec.fail e, ik, f.params.take k ++ [f.params.get ⟨k, hk⟩]) := by
    have happ := resolve_append_fail (f.params.take k)
      (f.params.get ⟨k, hk⟩ :: f.params.drop (k + 1)) i ik ik vs e
      [f.params.get ⟨k, hk⟩] hpre hsingle
    rw [← hsplit] at happ
    exact happ
  have htake : f.params.take k ++ [f.params.get ⟨k, hk⟩] = f.params.take (k + 1) := by
    rw [List.take_succ, List.getElem?_eq_getElem hk]
    rfl
  constructor
  · unfold Injector.CallMethod
    dsimp only
    rw [hshape]
    rw [if_neg (by simp)]
    rw [hfull]
    dsimp only
    rw [htake]
  · intro j hj hkj hnc hnm
    cases hB : isCached ik (f.params.get ⟨j, hj⟩) with
    | false => rfl
    | true =>
      have hrk := resolve_keys f.params i (f.params.get ⟨j, hj⟩)
      rw [hfull] at hrk
      dsimp only at hrk
      rcases hrk hB with h1 | h2
      · rw [hnc] at h1
        exact absurd h1 (by simp)
      · rw [htake] at h2
        exact absurd h2 hnm

/-- C8 witness: a target `(int, string, named 3)` over a registry
holding only an `int` slot; the `string` parameter fails with
`MissingValue`, the target is not invoked, only `int` and `string` are
requested, and no slot is cached for the third parameter's type. -/
theorem c8_abort_on_param_failure_witness :
    Injector.CallMethod ⟨some [(Ty.int, v5)], none, none⟩
      (MethVal.fn ⟨[Ty.int, Ty.str, Ty.named 3], false, [], fun _ => none⟩) =
      (Exec.fail (GoError.errMissingValue Ty.str), ⟨some [(Ty.int, v5)], none, none⟩,
        ⟨[Ty.int, Ty.str], none⟩) ∧
    isCached ⟨some [(Ty.int, v5)], none, none⟩ (Ty.named 3) = false := by
  have h := c8_abort_on_param_failure ⟨some [(Ty.int, v5)], none, none⟩
    ⟨some [(Ty.int, v5)], none, none⟩
    ⟨[Ty.int, Ty.str, Ty.named 3], false, [], fun _ => none⟩ 1 [v5]
    (GoError.errMissingValue Ty.str) rfl (by decide) rfl rfl
  exact ⟨h.1, h.2 2 (by decide) (by decide) rfl (by decide)⟩
